import Mathlib

/-!
Verification of the tax-projection engine in `tax_streamlit.py`.

The source is a straight-line script: three pure helper functions
(`compute_federal_tax`, `compute_amt_tax`, `compute_ca_tax`) and a
module-level block of derivations that turns the sidebar inputs into a
projection record.  We embed the numeric core over `ℚ`: every constant in
the program is an exact decimal, so rational arithmetic reproduces the
algorithm exactly.
-/

/-- The shared bracket loop of `compute_federal_tax` and `compute_ca_tax`
(lines 52-65 and 133-146 of the source): walk the `(bracket_limit, rate)`
pairs; on a fully exceeded bracket accumulate the full slice and advance
`lower_limit`; otherwise tax the partial slice and return; after the last
bracket, tax any remainder at `top_rate`. -/
def bracket_loop (top_rate taxable_income : ℚ) :
    List (ℚ × ℚ) → ℚ → ℚ → ℚ
  | [], lower_limit, tax =>
    if taxable_income > lower_limit then tax + (taxable_income - lower_limit) * top_rate
    else tax
  | (bracket_limit, rate) :: rest, lower_limit, tax =>
    if taxable_income > bracket_limit then
      bracket_loop top_rate taxable_income rest bracket_limit
        (tax + (bracket_limit - lower_limit) * rate)
    else
      tax + (taxable_income - lower_limit) * rate

/-- Federal bracket table selected by filing status (source lines 31-50). -/
def federal_brackets (is_married : Bool) : List (ℚ × ℚ) :=
  if is_married then
    [(20550, 0.10), (83550, 0.12), (178150, 0.22),
     (340100, 0.24), (431900, 0.32), (647850, 0.35)]
  else
    [(11000, 0.10), (44725, 0.12), (95375, 0.22),
     (182100, 0.24), (231250, 0.32), (578125, 0.35)]

/-- `compute_federal_tax` (source lines 8-65): marginal-bracket federal tax
with top rate 37%. -/
def compute_federal_tax (taxable_income : ℚ) (is_married : Bool) : ℚ :=
  bracket_loop 0.37 taxable_income (federal_brackets is_married) 0 0

/-- `compute_amt_tax` (source lines 67-81): 0 for non-positive income, 26%
up to 200000, 28% above. -/
def compute_amt_tax (amt_income : ℚ) : ℚ :=
  let threshold : ℚ := 200000
  if amt_income ≤ 0 then 0
  else if amt_income ≤ threshold then amt_income * 0.26
  else threshold * 0.26 + (amt_income - threshold) * 0.28

/-- California bracket table selected by filing status (source lines 108-131). -/
def ca_brackets (is_married : Bool) : List (ℚ × ℚ) :=
  if is_married then
    [(18650, 0.01), (44214, 0.02), (69784, 0.04), (96870, 0.06),
     (122430, 0.08), (625372, 0.093), (750442, 0.103), (1250738, 0.113)]
  else
    [(9324, 0.01), (22107, 0.02), (34892, 0.04), (48435, 0.06),
     (61215, 0.08), (312686, 0.093), (375221, 0.103), (625369, 0.113)]

/-- `compute_ca_tax` (source lines 83-146): marginal-bracket CA tax with top
rate 12.3%. -/
def compute_ca_tax (taxable_income : ℚ) (is_married : Bool) : ℚ :=
  bracket_loop 0.123 taxable_income (ca_brackets is_married) 0 0

/-- The sidebar inputs feeding the module-level computation
(source lines 166-180). -/
structure TaxInputs where
  is_married : Bool
  regular_income : ℚ
  rsu_count : ℤ
  iso_count : ℤ
  fmv : ℚ
  iso_strike_price : ℚ
  amt_credit : ℚ
  ca_amt_credit : ℚ
deriving DecidableEq

/-- Every intermediate and final figure produced by the module-level
computation block (source lines 198-251). -/
structure TaxProjectionResult where
  rsu_income : ℚ
  iso_adjustment : ℚ
  federal_taxable_income : ℚ
  regular_federal_tax : ℚ
  amt_income : ℚ
  amt_tax : ℚ
  additional_federal_tax : ℚ
  total_federal_tax : ℚ
  federal_withholding : ℚ
  additional_federal_due : ℚ
  ca_taxable_income : ℚ
  ca_tax_liability : ℚ
  ca_tax_liability_after_credit : ℚ
  ca_withholding : ℚ
  additional_state_due : ℚ
  total_additional_due : ℚ
deriving DecidableEq

/-- The module-level engine computation (source lines 198-299), line for
line: income derivation, filing-status parameters, federal regular tax,
AMT, additional federal tax, withholding, CA tax, CA credit and
withholding, and the overall total. -/
def project (inp : TaxInputs) : TaxProjectionResult :=
  let rsu_income : ℚ := (inp.rsu_count : ℚ) * inp.fmv
  let iso_bargain_element : ℚ := max 0 (inp.fmv - inp.iso_strike_price)
  let iso_adjustment : ℚ := (inp.iso_count : ℚ) * iso_bargain_element
  let federal_standard_deduction : ℚ := if inp.is_married then 28000 else 14000
  let amt_exemption : ℚ := if inp.is_married then 126500 else 81000
  let federal_taxable_income : ℚ :=
    max 0 ((inp.regular_income + rsu_income) - federal_standard_deduction)
  let regular_federal_tax : ℚ := compute_federal_tax federal_taxable_income inp.is_married
  let amt_income : ℚ :=
    max 0 ((inp.regular_income + rsu_income + iso_adjustment) - amt_exemption)
  let amt_tax : ℚ := compute_amt_tax amt_income
  let additional_federal_tax : ℚ := max 0 (amt_tax - inp.amt_credit - regular_federal_tax)
  let total_federal_tax : ℚ := regular_federal_tax + additional_federal_tax
  let federal_withholding : ℚ := inp.regular_income * 0.22 + rsu_income * 0.37
  let additional_federal_due : ℚ := total_federal_tax - federal_withholding
  let ca_standard_deduction : ℚ := if inp.is_married then 10000 else 5000
  let ca_taxable_income : ℚ :=
    max 0 ((inp.regular_income + rsu_income + iso_adjustment) - ca_standard_deduction)
  let ca_tax_liability : ℚ := compute_ca_tax ca_taxable_income inp.is_married
  let ca_tax_liability_after_credit : ℚ := max 0 (ca_tax_liability - inp.ca_amt_credit)
  let ca_withholding : ℚ := (inp.regular_income + rsu_income) * 0.1023
  let additional_state_due : ℚ := ca_tax_liability_after_credit - ca_withholding
  { rsu_income := rsu_income
    iso_adjustment := iso_adjustment
    federal_taxable_income := federal_taxable_income
    regular_federal_tax := regular_federal_tax
    amt_income := amt_income
    amt_tax := amt_tax
    additional_federal_tax := additional_federal_tax
    total_federal_tax := total_federal_tax
    federal_withholding := federal_withholding
    additional_federal_due := additional_federal_due
    ca_taxable_income := ca_taxable_income
    ca_tax_liability := ca_tax_liability
    ca_tax_liability_after_credit := ca_tax_liability_after_credit
    ca_withholding := ca_withholding
    additional_state_due := additional_state_due
    total_additional_due := additional_federal_due + additional_state_due }

/-- C1: for a single filer a federal taxable income of exactly 100000 is
taxed 11000 at 10%, the slice up to 44725 at 12%, the slice up to 95375 at
22% and the remaining 4625 at 24%, totalling exactly 17400. -/
theorem c1_federal_single_100000 :
    compute_federal_tax 100000 false = 17400 := by
  norm_num [compute_federal_tax, federal_brackets, bracket_loop]

/-- C2: `compute_amt_tax` returns 0 on non-positive income, 26% of the
income up to the 200000 threshold, and 52000 plus 28% of the excess above
it; in particular it returns 52000 at exactly 200000 and 80000 at 300000. -/
theorem c2_amt_two_tier :
    (∀ a : ℚ,
      (a ≤ 0 → compute_amt_tax a = 0) ∧
      (0 < a → a ≤ 200000 → compute_amt_tax a = a * 0.26) ∧
      (200000 < a → compute_amt_tax a = 200000 * 0.26 + (a - 200000) * 0.28)) ∧
    compute_amt_tax 200000 = 52000 ∧ compute_amt_tax 300000 = 80000 := by
  refine ⟨fun a => ⟨?_, ?_, ?_⟩, by norm_num [compute_amt_tax], by norm_num [compute_amt_tax]⟩
  · intro h; simp [compute_amt_tax, h]
  · intro h1 h2; rw [compute_amt_tax]; simp [not_le.mpr h1, h2]
  · intro h
    have h0 : ¬ a ≤ 0 := not_le.mpr (lt_trans (by norm_num : (0 : ℚ) < 200000) h)
    rw [compute_amt_tax]; simp [h0, not_le.mpr h]

/-- Witness for C2: the three regimes at -5, 100 and 250000. -/
theorem c2_amt_two_tier_witness :
    compute_amt_tax (-5) = 0 ∧ compute_amt_tax 100 = 26 ∧
    compute_amt_tax 250000 = 66000 := by
  refine ⟨(c2_amt_two_tier.1 (-5)).1 (by norm_num), ?_, ?_⟩
  · have h := (c2_amt_two_tier.1 100).2.1 (by norm_num) (by norm_num)
    rw [h]; norm_num
  · have h := (c2_amt_two_tier.1 250000).2.2 (by norm_num)
    rw [h]; norm_num

/-- A helper identity: adding the clamped excess of `d` over `a` to `a`
yields the maximum of the two. -/
theorem add_max_zero_sub (a d : ℚ) : a + max 0 (d - a) = max a d := by
  rcases le_total d a with h | h
  · rw [max_eq_left (sub_nonpos.mpr h), max_eq_left h, add_zero]
  · rw [max_eq_right (sub_nonneg.mpr h), max_eq_right h]; ring

/-- The end-to-end scenario input of C3: single filer, 150000 regular
income, 1000 RSUs at FMV 50, no ISOs, no credits. -/
def c3_input : TaxInputs := ⟨false, 150000, 1000, 0, 50, 0, 0, 0⟩

/-- C3: on the end-to-end scenario the engine derives rsuIncome 50000,
federalTaxableIncome 186000, amtIncome 119000, tentativeAmtTax 30940,
which is below the regular federal tax, so the additional federal tax is 0
and the total federal tax equals the regular federal tax. -/
theorem c3_end_to_end :
    (project c3_input).rsu_income = 50000 ∧
    (project c3_input).federal_taxable_income = 186000 ∧
    (project c3_input).amt_income = 119000 ∧
    (project c3_input).amt_tax = 30940 ∧
    (project c3_input).amt_tax < (project c3_input).regular_federal_tax ∧
    (project c3_input).additional_federal_tax = 0 ∧
    (project c3_input).total_federal_tax = (project c3_input).regular_federal_tax := by
  norm_num [project, c3_input, compute_federal_tax, compute_amt_tax,
    federal_brackets, bracket_loop]

/-- Replace the ISO unit count of an input by 0, keeping all other fields. -/
def zero_iso (i : TaxInputs) : TaxInputs :=
  ⟨i.is_married, i.regular_income, i.rsu_count, 0, i.fmv,
   i.iso_strike_price, i.amt_credit, i.ca_amt_credit⟩

/-- The ISO-only scenario input of C4: single filer, 100000 regular income,
no RSUs, 1000 ISOs at FMV 60 with strike 10. -/
def c4_input : TaxInputs := ⟨false, 100000, 0, 1000, 60, 10, 0, 0⟩

set_option maxHeartbeats 2000000 in
/-- C4: the ISO adjustment `isoUnitCount * max 0 (fmv - strike)` enters the
AMT and CA taxable-income bases but not the federal regular base (which is
unchanged by zeroing the ISO count); on the ISO-only scenario the 50000
adjustment moves amtIncome from 19000 to 69000 while the federal taxable
income stays 86000. -/
theorem c4_iso_adjustment_bases :
    (∀ inp : TaxInputs,
      (project inp).iso_adjustment =
        (inp.iso_count : ℚ) * max 0 (inp.fmv - inp.iso_strike_price) ∧
      (project inp).federal_taxable_income =
        (project (zero_iso inp)).federal_taxable_income ∧
      (project inp).regular_federal_tax =
        (project (zero_iso inp)).regular_federal_tax ∧
      (project inp).amt_income =
        max 0 (inp.regular_income + (project inp).rsu_income +
          (project inp).iso_adjustment - (if inp.is_married then (126500 : ℚ) else 81000)) ∧
      (project inp).ca_taxable_income =
        max 0 (inp.regular_income + (project inp).rsu_income +
          (project inp).iso_adjustment - (if inp.is_married then (10000 : ℚ) else 5000))) ∧
    (project c4_input).iso_adjustment = 50000 ∧
    (project c4_input).amt_income = 69000 ∧
    (project (zero_iso c4_input)).amt_income = 19000 ∧
    (project c4_input).federal_taxable_income = 86000 ∧
    (project (zero_iso c4_input)).federal_taxable_income = 86000 := by
  refine ⟨fun inp => ⟨?_, ?_, ?_, ?_, ?_⟩, ?_, ?_, ?_, ?_, ?_⟩ <;>
    norm_num [project, zero_iso, c4_input]

/-- C5: the total federal tax adds to the regular federal tax the clamped
excess of the credit-reduced tentative AMT over it, which is exactly the
maximum of the regular tax and the credit-reduced AMT. -/
theorem c5_total_is_max (inp : TaxInputs) :
    (project inp).total_federal_tax =
      (project inp).regular_federal_tax +
        max 0 ((project inp).amt_tax - inp.amt_credit - (project inp).regular_federal_tax) ∧
    (project inp).total_federal_tax =
      max (project inp).regular_federal_tax ((project inp).amt_tax - inp.amt_credit) := by
  constructor
  · simp [project]
  · show (project inp).total_federal_tax = _
    simp only [project]
    exact add_max_zero_sub _ _

/-- The refund scenario input of C7: single filer with 100000 regular
income and nothing else; withholding exceeds both liabilities. -/
def c7_input : TaxInputs := ⟨false, 100000, 0, 0, 0, 0, 0, 0⟩

set_option maxHeartbeats 2000000 in
/-- C7: the due amounts are the unclamped differences of liability and
withholding, where federal withholding is 22% of regular income plus 37%
of RSU income and CA withholding is 10.23% of wages; on the refund
scenario both due amounts are negative. -/
theorem c7_due_unclamped :
    (∀ inp : TaxInputs,
      (project inp).federal_withholding =
        inp.regular_income * 0.22 + (project inp).rsu_income * 0.37 ∧
      (project inp).additional_federal_due =
        (project inp).total_federal_tax - (project inp).federal_withholding ∧
      (project inp).ca_withholding =
        (inp.regular_income + (project inp).rsu_income) * 0.1023 ∧
      (project inp).additional_state_due =
        (project inp).ca_tax_liability_after_credit - (project inp).ca_withholding) ∧
    (project c7_input).additional_federal_due < 0 ∧
    (project c7_input).additional_state_due < 0 := by
  refine ⟨fun inp => ⟨?_, ?_, ?_, ?_⟩, ?_, ?_⟩ <;>
    norm_num [project, c7_input, compute_federal_tax, compute_ca_tax, compute_amt_tax,
      federal_brackets, ca_brackets, bracket_loop]

/-- C9: with underwater options (strike at or above FMV) the bargain
element is 0 and the whole projection coincides with the projection of the
same input with the ISO count zeroed. -/
theorem c9_underwater_iso (inp : TaxInputs) (h : inp.fmv ≤ inp.iso_strike_price) :
    project inp = project (zero_iso inp) := by
  have hb : max 0 (inp.fmv - inp.iso_strike_price) = 0 :=
    max_eq_left (sub_nonpos.mpr h)
  simp [project, zero_iso, hb]

/-- The underwater-ISO input used to witness C9. -/
def c9_input : TaxInputs := ⟨false, 1000, 0, 5, 10, 20, 0, 0⟩

/-- Witness for C9: a concrete input with strike 20 above FMV 10. -/
theorem c9_underwater_iso_witness :
    project c9_input = project (zero_iso c9_input) :=
  c9_underwater_iso c9_input (by norm_num [c9_input])

/-- Well-formedness of a bracket table relative to a running lower limit:
boundaries are non-decreasing from `lower` on and each rate lies between 0
and the top rate.  All four tables in the program satisfy it from 0. -/
def brackets_ok (top : ℚ) : ℚ → List (ℚ × ℚ) → Prop
  | _, [] => True
  | lower, (b, r) :: rest => lower ≤ b ∧ 0 ≤ r ∧ r ≤ top ∧ brackets_ok top b rest

/-- An empty bracket list taxes everything above `lower` at the top rate. -/
theorem bracket_loop_nil (top z lower tax : ℚ) (h : lower ≤ z) :
    bracket_loop top z [] lower tax = tax + (z - lower) * top := by
  rcases lt_or_eq_of_le h with h1 | h1
  · simp [bracket_loop, h1]
  · simp [bracket_loop, ← h1]

/-- Entering the loop with income equal to the lower limit adds nothing. -/
theorem bracket_loop_at_lower (top : ℚ) (br : List (ℚ × ℚ)) (lower tax : ℚ)
    (hok : brackets_ok top lower br) :
    bracket_loop top lower br lower tax = tax := by
  cases br with
  | nil => simp [bracket_loop]
  | cons p rest =>
      obtain ⟨b, r⟩ := p
      simp only [brackets_ok] at hok
      simp [bracket_loop, not_lt.mpr hok.1]

/-- On a well-formed table the loop is non-decreasing in the income and its
increase is bounded by the top rate times the income increase. -/
theorem bracket_loop_mono_lipschitz (top : ℚ) (htop : 0 ≤ top) :
    ∀ (br : List (ℚ × ℚ)) (lower tax x y : ℚ), brackets_ok top lower br →
      lower ≤ x → x ≤ y →
      bracket_loop top x br lower tax ≤ bracket_loop top y br lower tax ∧
      bracket_loop top y br lower tax - bracket_loop top x br lower tax ≤ top * (y - x) := by
  intro br
  induction br with
  | nil =>
      intro lower tax x y _ hlx hxy
      rw [bracket_loop_nil top x lower tax hlx,
          bracket_loop_nil top y lower tax (le_trans hlx hxy)]
      have h1 : (x - lower) * top ≤ (y - lower) * top :=
        mul_le_mul_of_nonneg_right (by linarith) htop
      have h2 : tax + (y - lower) * top - (tax + (x - lower) * top) = top * (y - x) := by
        ring
      constructor
      · linarith
      · linarith
  | cons p rest ih =>
      obtain ⟨b, r⟩ := p
      intro lower tax x y hok hlx hxy
      simp only [brackets_ok] at hok
      obtain ⟨hlb, hr0, hrt, hrest⟩ := hok
      simp only [bracket_loop]
      by_cases hxb : b < x
      · have hyb : b < y := lt_of_lt_of_le hxb hxy
        rw [if_pos hxb, if_pos hyb]
        exact ih b (tax + (b - lower) * r) x y hrest (le_of_lt hxb) hxy
      · rw [if_neg hxb]
        have hxble : x ≤ b := not_lt.mp hxb
        by_cases hyb : b < y
        · rw [if_pos hyb]
          have hbase : bracket_loop top b rest b (tax + (b - lower) * r)
              = tax + (b - lower) * r :=
            bracket_loop_at_lower top rest b (tax + (b - lower) * r) hrest
          obtain ⟨ihm, ihl⟩ :=
            ih b (tax + (b - lower) * r) b y hrest (le_refl b) (le_of_lt hyb)
          rw [hbase] at ihm ihl
          have hstep : (x - lower) * r ≤ (b - lower) * r :=
            mul_le_mul_of_nonneg_right (by linarith) hr0
          have hstep2 : (b - lower) * r - (x - lower) * r ≤ top * (b - x) := by
            have h3 : (b - lower) * r - (x - lower) * r = (b - x) * r := by ring
            rw [h3]
            calc (b - x) * r ≤ (b - x) * top :=
                  mul_le_mul_of_nonneg_left hrt (by linarith)
              _ = top * (b - x) := mul_comm _ _
          have hsum : top * (y - b) + top * (b - x) = top * (y - x) := by ring
          constructor
          · linarith
          · linarith
        · rw [if_neg hyb]
          have hyble : y ≤ b := not_lt.mp hyb
          have h1 : (x - lower) * r ≤ (y - lower) * r :=
            mul_le_mul_of_nonneg_right (by linarith) hr0
          have h2 : (y - lower) * r - (x - lower) * r ≤ top * (y - x) := by
            have h3 : (y - lower) * r - (x - lower) * r = (y - x) * r := by ring
            rw [h3]
            calc (y - x) * r ≤ (y - x) * top :=
                  mul_le_mul_of_nonneg_left hrt (by linarith)
              _ = top * (y - x) := mul_comm _ _
          constructor
          · linarith
          · linarith

/-- Well-formedness of the federal tables from lower limit 0. -/
theorem federal_brackets_ok (m : Bool) : brackets_ok 0.37 0 (federal_brackets m) := by
  cases m <;> norm_num [federal_brackets, brackets_ok]

/-- Well-formedness of the California tables from lower limit 0. -/
theorem ca_brackets_ok (m : Bool) : brackets_ok 0.123 0 (ca_brackets m) := by
  cases m <;> norm_num [ca_brackets, brackets_ok]

/-- C6: every bracket schedule in the program (federal and CA, single and
married) yields a tax that is non-decreasing in taxable income, grows by at
most the top rate (37% federal, 12.3% CA) times the income increase, is 0
at income 0, and is non-negative on non-negative income. -/
theorem c6_bracket_monotone_bounded (m : Bool) (x y : ℚ) (hx : 0 ≤ x) (hxy : x ≤ y) :
    compute_federal_tax x m ≤ compute_federal_tax y m ∧
    compute_federal_tax y m - compute_federal_tax x m ≤ 0.37 * (y - x) ∧
    compute_ca_tax x m ≤ compute_ca_tax y m ∧
    compute_ca_tax y m - compute_ca_tax x m ≤ 0.123 * (y - x) ∧
    compute_federal_tax 0 m = 0 ∧ compute_ca_tax 0 m = 0 ∧
    0 ≤ compute_federal_tax x m ∧ 0 ≤ compute_ca_tax x m := by
  have hfok := federal_brackets_ok m
  have hcok := ca_brackets_ok m
  have hf := bracket_loop_mono_lipschitz 0.37 (by norm_num)
    (federal_brackets m) 0 0 x y hfok hx hxy
  have hc := bracket_loop_mono_lipschitz 0.123 (by norm_num)
    (ca_brackets m) 0 0 x y hcok hx hxy
  have hf0 := bracket_loop_at_lower 0.37 (federal_brackets m) 0 0 hfok
  have hc0 := bracket_loop_at_lower 0.123 (ca_brackets m) 0 0 hcok
  have hfx := bracket_loop_mono_lipschitz 0.37 (by norm_num)
    (federal_brackets m) 0 0 0 x hfok (le_refl 0) hx
  have hcx := bracket_loop_mono_lipschitz 0.123 (by norm_num)
    (ca_brackets m) 0 0 0 x hcok (le_refl 0) hx
  simp only [compute_federal_tax, compute_ca_tax]
  refine ⟨hf.1, hf.2, hc.1, hc.2, hf0, hc0, ?_, ?_⟩
  · have h := hfx.1; rw [hf0] at h; exact h
  · have h := hcx.1; rw [hc0] at h; exact h

/-- Witness for C6: the single schedules between incomes 100 and 200. -/
theorem c6_bracket_monotone_bounded_witness :
    compute_federal_tax 100 false ≤ compute_federal_tax 200 false ∧
    compute_federal_tax 200 false - compute_federal_tax 100 false ≤ 0.37 * (200 - 100) ∧
    compute_ca_tax 100 false ≤ compute_ca_tax 200 false ∧
    compute_ca_tax 200 false - compute_ca_tax 100 false ≤ 0.123 * (200 - 100) ∧
    compute_federal_tax 0 false = 0 ∧ compute_ca_tax 0 false = 0 ∧
    0 ≤ compute_federal_tax 100 false ∧ 0 ≤ compute_ca_tax 100 false :=
  c6_bracket_monotone_bounded false 100 200 (by norm_num) (by norm_num)

/-- The rate applying to the first slice of a bracket list, or the top rate
when the list is exhausted. -/
def head_rate (top : ℚ) : List (ℚ × ℚ) → ℚ
  | [] => top
  | (_, r) :: _ => r

/-- Closed form of the bracket tax: the top rate on all of `x`, corrected
at each boundary by the rate gap to the next slice times the income capped
at that boundary. -/
def bracket_closed (top x : ℚ) : List (ℚ × ℚ) → ℚ
  | [] => top * x
  | (b, r) :: rest => bracket_closed top x rest + (r - head_rate top rest) * min x b

/-- The head rate of the empty table is the top rate. -/
theorem head_rate_nil (top : ℚ) : head_rate top [] = top := rfl

/-- The head rate of a non-empty table is its first rate. -/
theorem head_rate_cons (top b r : ℚ) (rest : List (ℚ × ℚ)) :
    head_rate top ((b, r) :: rest) = r := rfl

/-- Below every boundary the closed form degenerates to the head rate times
the income. -/
theorem bracket_closed_below (top x : ℚ) :
    ∀ (br : List (ℚ × ℚ)) (lower : ℚ), brackets_ok top lower br → x ≤ lower →
      bracket_closed top x br = head_rate top br * x := by
  intro br
  induction br with
  | nil => intro lower _ _; simp [bracket_closed, head_rate, mul_comm]
  | cons p rest ih =>
      obtain ⟨b, r⟩ := p
      intro lower hok hxl
      simp only [brackets_ok] at hok
      obtain ⟨hlb, _, _, hrest⟩ := hok
      have hxb : x ≤ b := le_trans hxl hlb
      simp only [bracket_closed, head_rate_cons]
      rw [ih b hrest hxb, min_eq_left hxb]
      ring

/-- The loop agrees with the closed form, up to the head rate applied to
the entry lower limit. -/
theorem bracket_loop_eq_closed (top : ℚ) :
    ∀ (br : List (ℚ × ℚ)) (lower tax x : ℚ), brackets_ok top lower br → lower ≤ x →
      bracket_loop top x br lower tax =
        tax + (bracket_closed top x br - head_rate top br * lower) := by
  intro br
  induction br with
  | nil =>
      intro lower tax x _ hlx
      rw [bracket_loop_nil top x lower tax hlx]
      simp only [bracket_closed, head_rate_nil]
      ring
  | cons p rest ih =>
      obtain ⟨b, r⟩ := p
      intro lower tax x hok hlx
      simp only [brackets_ok] at hok
      obtain ⟨hlb, _, _, hrest⟩ := hok
      simp only [bracket_loop, bracket_closed, head_rate_cons]
      by_cases hxb : b < x
      · rw [if_pos hxb, ih b (tax + (b - lower) * r) x hrest (le_of_lt hxb),
            min_eq_right (le_of_lt hxb)]
        ring
      · rw [if_neg hxb]
        have hxble : x ≤ b := not_lt.mp hxb
        rw [min_eq_left hxble, bracket_closed_below top x rest b hrest hxble]
        ring

/-- Pairwise relation between two bracket tables: same length, identical
rates, and the boundaries of the second dominate those of the first. -/
def brackets_le : List (ℚ × ℚ) → List (ℚ × ℚ) → Prop
  | [], [] => True
  | (bs, rs) :: rests, (bm, rm) :: restm => rs = rm ∧ bs ≤ bm ∧ brackets_le rests restm
  | _, _ => False

/-- Rates ascend along the table and into the top rate. -/
def rates_ascending (top : ℚ) : List (ℚ × ℚ) → Prop
  | [] => True
  | (_, r) :: rest => r ≤ head_rate top rest ∧ rates_ascending top rest

/-- Tables related by `brackets_le` share their head rate. -/
theorem brackets_le_head_rate (top : ℚ) :
    ∀ brs brm, brackets_le brs brm → head_rate top brs = head_rate top brm := by
  intro brs brm h
  cases brs with
  | nil =>
      cases brm with
      | nil => rfl
      | cons q restm =>
          obtain ⟨bm, rm⟩ := q
          simp only [brackets_le] at h
  | cons p rests =>
      obtain ⟨bs, rs⟩ := p
      cases brm with
      | nil => simp only [brackets_le] at h
      | cons q restm =>
          obtain ⟨bm, rm⟩ := q
          simp only [brackets_le] at h
          simp [head_rate_cons, h.1]

/-- Raising boundaries while keeping the same ascending rates can only
lower the closed-form tax. -/
theorem bracket_closed_le (top x : ℚ) :
    ∀ brs brm, brackets_le brs brm → rates_ascending top brs →
      bracket_closed top x brm ≤ bracket_closed top x brs := by
  intro brs
  induction brs with
  | nil =>
      intro brm h _
      cases brm with
      | nil => exact le_refl _
      | cons q restm =>
          obtain ⟨bm, rm⟩ := q
          simp only [brackets_le] at h
  | cons p rests ih =>
      obtain ⟨bs, rs⟩ := p
      intro brm h hasc
      cases brm with
      | nil => simp only [brackets_le] at h
      | cons q restm =>
          obtain ⟨bm, rm⟩ := q
          simp only [brackets_le] at h
          obtain ⟨hreq, hble, hrest⟩ := h
          simp only [rates_ascending, head_rate_cons] at hasc
          obtain ⟨hra, hasc2⟩ := hasc
          simp only [bracket_closed]
          have hhr := brackets_le_head_rate top rests restm hrest
          have hcoef : rs - head_rate top rests ≤ 0 := sub_nonpos.mpr hra
          have hmin : min x bs ≤ min x bm := min_le_min (le_refl x) hble
          have hterm : (rm - head_rate top restm) * min x bm ≤
              (rs - head_rate top rests) * min x bs := by
            rw [← hreq, ← hhr]
            exact mul_le_mul_of_nonpos_left hmin hcoef
          exact add_le_add (ih restm hrest hasc2) hterm

/-- The single federal table has ascending rates below the 37% top rate. -/
theorem federal_rates_ascending : rates_ascending 0.37 (federal_brackets false) := by
  norm_num [federal_brackets, rates_ascending, head_rate]

/-- The single CA table has ascending rates below the 12.3% top rate. -/
theorem ca_rates_ascending : rates_ascending 0.123 (ca_brackets false) := by
  norm_num [ca_brackets, rates_ascending, head_rate]

/-- The married federal table has the same rates as the single one over
dominating boundaries. -/
theorem federal_brackets_single_le_married :
    brackets_le (federal_brackets false) (federal_brackets true) := by
  norm_num [federal_brackets, brackets_le]

/-- The married CA table has the same rates as the single one over
dominating boundaries. -/
theorem ca_brackets_single_le_married :
    brackets_le (ca_brackets false) (ca_brackets true) := by
  norm_num [ca_brackets, brackets_le]

/-- C10: at every non-negative taxable income the married-filing-jointly
schedule yields no more tax than the single schedule, both federally and
for California. -/
theorem c10_married_le_single (x : ℚ) (hx : 0 ≤ x) :
    compute_federal_tax x true ≤ compute_federal_tax x false ∧
    compute_ca_tax x true ≤ compute_ca_tax x false := by
  constructor
  · have hs := bracket_loop_eq_closed 0.37 (federal_brackets false) 0 0 x
      (federal_brackets_ok false) hx
    have hm := bracket_loop_eq_closed 0.37 (federal_brackets true) 0 0 x
      (federal_brackets_ok true) hx
    have hcmp := bracket_closed_le 0.37 x (federal_brackets false) (federal_brackets true)
      federal_brackets_single_le_married federal_rates_ascending
    simp only [compute_federal_tax]
    rw [hs, hm]
    simp only [mul_zero, sub_zero, zero_add]
    exact hcmp
  · have hs := bracket_loop_eq_closed 0.123 (ca_brackets false) 0 0 x
      (ca_brackets_ok false) hx
    have hm := bracket_loop_eq_closed 0.123 (ca_brackets true) 0 0 x
      (ca_brackets_ok true) hx
    have hcmp := bracket_closed_le 0.123 x (ca_brackets false) (ca_brackets true)
      ca_brackets_single_le_married ca_rates_ascending
    simp only [compute_ca_tax]
    rw [hs, hm]
    simp only [mul_zero, sub_zero, zero_add]
    exact hcmp

/-- Witness for C10: the schedules at taxable income 300000. -/
theorem c10_married_le_single_witness :
    compute_federal_tax 300000 true ≤ compute_federal_tax 300000 false ∧
    compute_ca_tax 300000 true ≤ compute_ca_tax 300000 false :=
  c10_married_le_single 300000 (by norm_num)

/-- The script's entry point: the module-level block computes the
projection unconditionally, with no validation anywhere in the source and
no error path, so the embedded entry point succeeds on every input.
Negative raw values are kept out only by the sidebar widgets of the
presentation layer. -/
def engine_entry (inp : TaxInputs) : Except String TaxProjectionResult :=
  Except.ok (project inp)

/-- An input with a negative regularIncome, used for C8. -/
def c8_input : TaxInputs := ⟨false, -1000, 0, 0, 0, 0, 0, 0⟩

/-- C8 counterexample: on an input with regularIncome -1000 the entry point
returns an ordinary result, not an InvalidInput error, and the negative
amount flows unclamped into the withholding figure. -/
theorem c8_counterexample_no_error :
    engine_entry c8_input = Except.ok (project c8_input) ∧
    (project c8_input).federal_withholding = -220 := by
  refine ⟨rfl, ?_⟩
  norm_num [project, c8_input]

set_option maxHeartbeats 1000000 in
/-- C8 amended: the engine performs no input validation and never fails:
every input, including ones with negative amounts, yields a computed
projection, and the negative amounts propagate into the withholding and
due figures; only the documented max-0 floors on derived bases clamp. -/
theorem c8_no_validation :
    (∀ inp : TaxInputs, engine_entry inp = Except.ok (project inp)) ∧
    (project c8_input).federal_withholding = -220 ∧
    (project c8_input).additional_federal_due = 220 ∧
    (project c8_input).additional_state_due = 102.3 := by
  refine ⟨fun _ => rfl, ?_, ?_, ?_⟩ <;>
    norm_num [project, c8_input, compute_federal_tax, compute_ca_tax, compute_amt_tax,
      federal_brackets, ca_brackets, bracket_loop]
